import Mathlib

/-
  Verification of the lighthouse trace-metric engine
  (lighthouse-core/third_party/traceviewer-js/metrics/system_health).

  The definitions below are a shallow embedding of responsiveness_metric.js
  and memory_metric.js.  JavaScript numbers are modelled as rationals,
  JavaScript exceptions as `Except String`, and insertion-ordered maps /
  objects as association lists.  Helpers that live outside the embedded
  sources (value/numeric.js, base/statistics.js, base/iteration_helpers.js,
  base/math utilities) are modelled from the specification and marked as
  such in their doc comments.
-/

namespace TraceViewer

/-! ### Scoring histograms (responsiveness_metric.js, lines 33-101) -/

/-- One central bin of a scoring histogram: `{min, max, count}` from the
literal tables in responsiveness_metric.js. -/
structure CentralBin where
  lo : ℚ
  hi : ℚ
  count : ℚ
deriving DecidableEq, Repr

/-- A scoring table: an underflow bin count, the ordered central bins and an
overflow bin count, as built by `tr.v.Numeric.fromDict` from the literal
dictionaries in responsiveness_metric.js. -/
structure ScoreHistogram where
  underflowCount : ℚ
  centralBins : List CentralBin
  overflowCount : ℚ
deriving DecidableEq, Repr

/-- Lower edge of the first central bin (the `min` field of the literal
histogram dictionaries). -/
def histMin (h : ScoreHistogram) : ℚ :=
  match h.centralBins with
  | [] => 0
  | b :: _ => b.lo

/-- Upper edge of the last central bin (the `max` field of the literal
histogram dictionaries). -/
def histMax (h : ScoreHistogram) : ℚ :=
  match h.centralBins.getLast? with
  | none => 0
  | some b => b.hi

/-- Center of a central bin. -/
def binCenter (b : CentralBin) : ℚ := (b.lo + b.hi) / 2

/-- The (center, count) interpolation points of the central bins. -/
def centerPoints (h : ScoreHistogram) : List (ℚ × ℚ) :=
  h.centralBins.map (fun b => (binCenter b, b.count))

/-- Modelled from the spec: the piecewise-linear interpolation behind
`tr.v.Numeric.getInterpolatedCountAt` (value/numeric.js, which is not under
src/).  Values are interpolated linearly between consecutive interpolation
points; at or before the first point and after the last point the nearest
count is used ("edge duration values clamp to the nearest bin boundary"). -/
def interpPts : List (ℚ × ℚ) → ℚ → ℚ
  | [], _ => 0
  | [p], _ => p.2
  | p :: q :: rest, d =>
    if d ≤ p.1 then p.2
    else if d ≤ q.1 then p.2 + (d - p.1) / (q.1 - p.1) * (q.2 - p.2)
    else interpPts (q :: rest) d

/-- Modelled from the spec: `tr.v.Numeric.getInterpolatedCountAt`
(value/numeric.js is not under src/).  The count at a duration, linearly
interpolated within the central bins; "values beyond the outermost bins
saturate at the underflow/overflow count". -/
def getInterpolatedCountAt (h : ScoreHistogram) (d : ℚ) : ℚ :=
  if d < histMin h then h.underflowCount
  else if histMax h ≤ d then h.overflowCount
  else interpPts (centerPoints h) d

/-- Modelled from the spec: `tr.v.Numeric.maxCount` (value/numeric.js is not
under src/), "the count value used for normalization (fixed per table)":
the largest bin count of the table. -/
def maxCount (h : ScoreHistogram) : ℚ :=
  (h.underflowCount :: h.overflowCount :: h.centralBins.map CentralBin.count).foldr max 0

/-- responsiveness_metric.js, lines 99-101. -/
def computeDurationResponsiveness (h : ScoreHistogram) (duration : ℚ) : ℚ :=
  getInterpolatedCountAt h duration / maxCount h

/-- responsiveness_metric.js, lines 33-52. -/
def RESPONSE_HISTOGRAM : ScoreHistogram :=
  { underflowCount := 1000
    centralBins :=
      [⟨150, 635, 708⟩, ⟨635, 1120, 223⟩, ⟨1120, 1605, 50⟩, ⟨1605, 2090, 33⟩,
       ⟨2090, 2575, 23⟩, ⟨2575, 3060, 17⟩, ⟨3060, 3545, 12⟩, ⟨3545, 4030, 8⟩,
       ⟨4030, 4515, 4⟩, ⟨4515, 5000, 1⟩]
    overflowCount := 0 }

/-- responsiveness_metric.js, lines 54-73. -/
def FAST_RESPONSE_HISTOGRAM : ScoreHistogram :=
  { underflowCount := 1000
    centralBins :=
      [⟨66, 280, 708⟩, ⟨280, 493, 223⟩, ⟨493, 706, 50⟩, ⟨706, 920, 33⟩,
       ⟨920, 1133, 23⟩, ⟨1133, 1346, 17⟩, ⟨1346, 1560, 12⟩, ⟨1560, 1773, 8⟩,
       ⟨1773, 1987, 4⟩, ⟨1987, 2200, 1⟩]
    overflowCount := 0 }

/-- responsiveness_metric.js, lines 75-94. -/
def LOAD_HISTOGRAM : ScoreHistogram :=
  { underflowCount := 1000
    centralBins :=
      [⟨1000, 6900, 901⟩, ⟨6900, 12800, 574⟩, ⟨12800, 18700, 298⟩,
       ⟨18700, 24600, 65⟩, ⟨24600, 30500, 35⟩, ⟨30500, 36400, 23⟩,
       ⟨36400, 42300, 16⟩, ⟨42300, 48200, 10⟩, ⟨48200, 54100, 5⟩,
       ⟨54100, 60000, 2⟩]
    overflowCount := 0 }

/-! ### Basic utilities of the responsiveness engine -/

/-- Modelled from the spec: `tr.b.normalize` (base utilities, not under
src/): position of a value within a range. -/
def normalize (v lo hi : ℚ) : ℚ := (v - lo) / (hi - lo)

/-- Modelled from the spec: `tr.b.clamp` (base utilities, not under src/):
clamp a value to a closed interval. -/
def clamp (x lo hi : ℚ) : ℚ := min hi (max lo x)

/-- Modelled from the spec: `tr.b.Statistics.weightedMean`
(base/statistics.js is not under src/): the weighted mean of a list of
scores under a weighting callback, undefined when the cumulative weight is
zero (in particular on the empty list). -/
def weightedMean (xs : List ℚ) (w : ℚ → ℚ) : Option ℚ :=
  let cumulativeWeight := (xs.map w).sum
  if cumulativeWeight = 0 then none
  else some ((xs.map (fun x => w x * x)).sum / cumulativeWeight)

/-! ### User expectations (model/user_model classes, used via instanceof) -/

/-- Fields shared by every user expectation that the responsiveness metric
reads: stable id, stage title, initiator title and duration. -/
structure ExpBase where
  stableId : String
  stageTitle : String
  initiatorTitle : String
  duration : ℚ
deriving DecidableEq, Repr

/-- An animation expectation; its frame events are modelled by the list of
their start timestamps (computeAnimationSmoothness maps each event to
`event.start`), `none` when the `frameEvents` field is undefined. -/
structure AnimationExpectation where
  base : ExpBase
  frameEvents : Option (List ℚ)
deriving DecidableEq, Repr

/-- The closed set of user-expectation classes dispatched over by
`computeResponsiveness` (responsiveness_metric.js, lines 192-227). -/
inductive UserExpectation where
  | idle (e : ExpBase)
  | load (e : ExpBase)
  | response (e : ExpBase) (isAnimationBegin : Bool)
  | animation (a : AnimationExpectation)
deriving DecidableEq, Repr

/-- Whether an expectation is an `IdleExpectation`. -/
def UserExpectation.isIdle : UserExpectation → Bool
  | .idle _ => true
  | _ => false

/-- responsiveness_metric.js, lines 103-111. -/
structure GroupingKeys where
  userExpectationStableId : String
  userExpectationStageTitle : String
  userExpectationInitiatorTitle : String
deriving DecidableEq, Repr

/-- responsiveness_metric.js, lines 103-111. -/
def groupingKeysForUserExpectation (e : ExpBase) : GroupingKeys :=
  ⟨e.stableId, e.stageTitle, e.initiatorTitle⟩

/-- A diagnostic value added to the local `diagnosticValues` list (name,
score and grouping keys; the constant url and unit are omitted). -/
structure DiagValue where
  name : String
  value : ℚ
  groupingKeys : GroupingKeys
deriving DecidableEq, Repr

/-- A value added to the metric output `valueList`: the overall
responsiveness value together with its attached diagnostics. -/
structure OverallValue where
  name : String
  value : ℚ
  diagnostics : List DiagValue
deriving DecidableEq, Repr

/-! ### Animation scoring (responsiveness_metric.js, lines 113-190) -/

/-- responsiveness_metric.js, line 115. -/
def MAX_FPS : ℚ := 60

/-- responsiveness_metric.js, line 119. -/
def MIN_FPS : ℚ := 10

/-- responsiveness_metric.js, line 135. -/
def MIN_DISCREPANCY : ℚ := 0.05

/-- responsiveness_metric.js, line 139. -/
def MAX_DISCREPANCY : ℚ := 0.3

/-- responsiveness_metric.js, lines 121-131 (quotes of the original error
message are omitted). -/
def computeAnimationThroughput (a : AnimationExpectation) : Except String ℚ :=
  match a.frameEvents with
  | none => .error ("Animation missing frameEvents " ++ a.base.stableId)
  | some frameEvents =>
    if frameEvents.length = 0 then
      .error ("Animation missing frameEvents " ++ a.base.stableId)
    else
      let durationSeconds := a.base.duration / 1000
      let avgSpf := durationSeconds / (frameEvents.length : ℚ)
      .ok (clamp (1 - normalize avgSpf (1 / MAX_FPS) (1 / MIN_FPS)) 0 1)

/-- responsiveness_metric.js, lines 141-158.  The statistic
`tr.b.Statistics.timestampsDiscrepancy` lives in base/statistics.js, which
is not under src/; it is abstracted as the parameter `disc` applied to the
frame start timestamps. -/
def computeAnimationSmoothness (disc : List ℚ → ℚ) (a : AnimationExpectation) :
    Except String ℚ :=
  match a.frameEvents with
  | none => .error ("Animation missing frameEvents " ++ a.base.stableId)
  | some frameEvents =>
    if frameEvents.length = 0 then
      .error ("Animation missing frameEvents " ++ a.base.stableId)
    else
      let discrepancy := disc frameEvents
      .ok (clamp (1 - normalize discrepancy MIN_DISCREPANCY MAX_DISCREPANCY) 0 1)

/-- responsiveness_metric.js, lines 160-190.  `tr.metrics.sh.perceptualBlend`
(utils.js, not under src/) is abstracted as the weighting parameter
`blend`.  Returns the blended score (undefined when the weighted mean is)
together with the diagnostic values added along the way. -/
def computeAnimationResponsiveness (blend : ℚ → ℚ) (disc : List ℚ → ℚ)
    (a : AnimationExpectation) : Except String (Option ℚ × List DiagValue) :=
  match computeAnimationThroughput a with
  | .error e => .error e
  | .ok throughput =>
    let d1 : DiagValue :=
      ⟨"throughput", throughput, groupingKeysForUserExpectation a.base⟩
    match computeAnimationSmoothness disc a with
    | .error e => .error e
    | .ok smoothness =>
      let d2 : DiagValue :=
        ⟨"smoothness", smoothness, groupingKeysForUserExpectation a.base⟩
      .ok (weightedMean [throughput, smoothness] blend, [d1, d2])

/-! ### Dispatch and the metric itself (responsiveness_metric.js, 192-257) -/

/-- responsiveness_metric.js, lines 192-227: dispatch over the expectation
class, producing the per-expectation score and the diagnostic values added
to `diagnosticValues`. -/
def computeResponsiveness (blend : ℚ → ℚ) (disc : List ℚ → ℚ) :
    UserExpectation → Except String (ℚ × List DiagValue)
  | .idle _ => .error "Responsiveness is not defined for Idle"
  | .load e =>
    let score := computeDurationResponsiveness LOAD_HISTOGRAM e.duration
    .ok (score, [⟨"responsiveness", score, groupingKeysForUserExpectation e⟩])
  | .response e isAnimationBegin =>
    let histogram :=
      if isAnimationBegin then FAST_RESPONSE_HISTOGRAM else RESPONSE_HISTOGRAM
    let score := computeDurationResponsiveness histogram e.duration
    .ok (score, [⟨"responsiveness", score, groupingKeysForUserExpectation e⟩])
  | .animation a =>
    match computeAnimationResponsiveness blend disc a with
    | .error e => .error e
    | .ok (score?, diags) =>
      match score? with
      | none => .error ("Unable to compute responsiveness for " ++ a.base.stableId)
      | some score =>
        .ok (score,
          diags ++ [⟨"responsiveness", score, groupingKeysForUserExpectation a.base⟩])

/-- The forEach loop of responsivenessMetric (lines 233-239): idle
expectations are skipped, every other expectation is scored; any scorer
failure aborts the whole traversal. -/
def collectScores (blend : ℚ → ℚ) (disc : List ℚ → ℚ) :
    List UserExpectation → Except String (List ℚ × List DiagValue)
  | [] => .ok ([], [])
  | ue :: rest =>
    if ue.isIdle then collectScores blend disc rest
    else
      match computeResponsiveness blend disc ue with
      | .error e => .error e
      | .ok (score, diags) =>
        match collectScores blend disc rest with
        | .error e => .error e
        | .ok (scores, diagsRest) => .ok (score :: scores, diags ++ diagsRest)

/-- responsiveness_metric.js, lines 229-257: the registered metric.  The
model is represented by its list of user expectations (in expectation
order); the result is the list of values added to `valueList`. -/
def responsivenessMetric (blend : ℚ → ℚ) (disc : List ℚ → ℚ)
    (expectations : List UserExpectation) : Except String (List OverallValue) :=
  match collectScores blend disc expectations with
  | .error e => .error e
  | .ok (scores, diagnosticValues) =>
    match weightedMean scores blend with
    | none => .ok []
    | some overallScore => .ok [⟨"responsiveness", overallScore, diagnosticValues⟩]

/-! ### Memory metric data model (memory_metric.js) -/

/-- The two units the aggregation pipeline of memory_metric.js works with
(value/unit.js itself is not under src/; only the identity and name of a
unit matter to the embedded code). -/
inductive MemUnit where
  | sizeInBytes_smallerIsBetter
  | unitlessNumber_smallerIsBetter
deriving DecidableEq, Repr

/-- The `unitName` of a unit, as used by the error messages. -/
def MemUnit.unitName : MemUnit → String
  | .sizeInBytes_smallerIsBetter => "sizeInBytes_smallerIsBetter"
  | .unitlessNumber_smallerIsBetter => "unitlessNumber_smallerIsBetter"

/-- tr.v.ScalarNumeric: a unit together with a numeric value. -/
structure ScalarNumeric where
  unit : MemUnit
  value : ℚ
deriving DecidableEq, Repr

/-- memory_metric.js, line 54. -/
def ALL_PROCESS_NAMES : String := "all"

/-- tr.model.ContainerMemoryDump.LevelOfDetail. -/
inductive LevelOfDetail where
  | LIGHT
  | DETAILED
deriving DecidableEq, Repr

/-- A process memory dump: the name of its process (undefined or empty maps
to "unknown") and the data the value extractor reads, generic in the same
way `addPerProcessNameMemoryDumpValues` is generic in its extractor. -/
structure ProcessMemoryDump (α : Type) where
  name : Option String
  data : α
deriving DecidableEq, Repr

/-- A global memory dump: its level of detail and its process dumps, in the
iteration order of `globalDump.processMemoryDumps`. -/
structure GlobalMemoryDump (α : Type) where
  levelOfDetail : LevelOfDetail
  processMemoryDumps : List (ProcessMemoryDump α)
deriving DecidableEq, Repr

/-- Value name to summed scalar, an insertion-ordered JavaScript object. -/
abbrev ValueDict := List (String × ScalarNumeric)

/-- Process name to `ValueDict`, an insertion-ordered JavaScript object. -/
abbrev ProcessNameDict := List (String × ValueDict)

/-- Lookup in an insertion-ordered object. -/
def dictGet {α : Type} (d : List (String × α)) (k : String) : Option α :=
  (d.find? (fun p => p.1 == k)).map Prod.snd

/-- Assignment `d[k] = v` on an insertion-ordered object: an existing key
keeps its position, a new key is appended. -/
def dictSet {α : Type} (d : List (String × α)) (k : String) (v : α) :
    List (String × α) :=
  if (d.find? (fun p => p.1 == k)).isSome then
    d.map (fun p => if p.1 == k then (k, v) else p)
  else d ++ [(k, v)]

/-! ### Process-name keys and per-process-name sums
    (memory_metric.js, lines 412-451) -/

/-- memory_metric.js, lines 420-421: the aggregation key of a process dump,
`(processDump.process.name || "unknown").toLowerCase().replace(" ", "_")`.
JavaScript `String.prototype.replace` with a string pattern replaces only
the first occurrence; `||` treats the empty string like an absent name. -/
def replaceFirstChar : List Char → Char → Char → List Char
  | [], _, _ => []
  | c :: cs, a, b => if c = a then b :: cs else c :: replaceFirstChar cs a b

/-- JavaScript `String.prototype.toLowerCase`, code point by code point. -/
def toLowerCase (s : String) : String := String.mk (s.data.map Char.toLower)

/-- memory_metric.js, lines 420-421 (see `replaceFirstChar`). -/
def processNameKey (name : Option String) : String :=
  let rawProcessName :=
    match name with
    | none => "unknown"
    | some s => if s = "" then "unknown" else s
  String.mk (replaceFirstChar (toLowerCase rawProcessName).data ' ' '_')

/-- memory_metric.js, lines 430-447: the `addProcessScalar` callback.  An
undefined scalar is skipped; a fresh value name starts a new sum; a unit
mismatch with the existing sum throws (quotes of the original message are
omitted); otherwise the value is added to the sum in place. -/
def addProcessScalar (processName : String) (g : ValueDict) (name : String)
    (scalar? : Option ScalarNumeric) : Except String ValueDict :=
  match scalar? with
  | none => .ok g
  | some s =>
    match dictGet g name with
    | none => .ok (g ++ [(name, s)])
    | some old =>
      if s.unit ≠ old.unit then
        .error ("Multiple units provided for value " ++ name ++ " of " ++
          processName ++ " processes: " ++ old.unit.unitName ++ " and " ++
          s.unit.unitName)
      else .ok (dictSet g name ⟨old.unit, old.value + s.value⟩)

/-- The sequence of `addProcessScalar` calls one extractor invocation
makes, folded over the process-name group. -/
def addProcessScalars (processName : String) (g : ValueDict) :
    List (String × Option ScalarNumeric) → Except String ValueDict
  | [] => .ok g
  | p :: rest =>
    match addProcessScalar processName g p.1 p.2 with
    | .error e => .error e
    | .ok g2 => addProcessScalars processName g2 rest

/-- memory_metric.js, lines 418-448: fold the process dumps of one global
dump into the per-process-name accumulator.  The extractor is represented
by the list of `(name, scalar-or-undefined)` calls it makes to
`addProcessScalar`. -/
def aggregateProcessDumps {α : Type}
    (ext : α → List (String × Option ScalarNumeric))
    (acc : ProcessNameDict) :
    List (ProcessMemoryDump α) → Except String ProcessNameDict
  | [] => .ok acc
  | pd :: rest =>
    let processName := processNameKey pd.name
    let g := (dictGet acc processName).getD []
    match addProcessScalars processName g (ext pd.data) with
    | .error e => .error e
    | .ok g2 => aggregateProcessDumps ext (dictSet acc processName g2) rest

/-- memory_metric.js, lines 412-451: for each global dump, sum the extracted
values by process name. -/
def calculatePerProcessNameMemoryDumpValues {α : Type}
    (ext : α → List (String × Option ScalarNumeric)) :
    List (GlobalMemoryDump α) → Except String (List ProcessNameDict)
  | [] => .ok []
  | gd :: rest =>
    match aggregateProcessDumps ext [] gd.processMemoryDumps with
    | .error e => .error e
    | .ok pn2v =>
      match calculatePerProcessNameMemoryDumpValues ext rest with
      | .error e => .error e
      | .ok out => .ok (pn2v :: out)

/-! ### Totals over the synthetic "all" group
    (memory_metric.js, lines 460-484) -/

/-- Modelled from the spec: key collection order of
`tr.b.invertArrayOfDicts` (base/iteration_helpers.js is not under src/):
value names in order of first appearance across the per-process groups. -/
def firstAppearanceKeys (groups : List ValueDict) : List String :=
  groups.foldl
    (fun acc g =>
      g.foldl (fun acc2 p => if acc2.contains p.1 then acc2 else acc2 ++ [p.1]) acc)
    []

/-- memory_metric.js, lines 469-481: the reduce inside the totals
computation.  The unit of the first present scalar is required of every
later scalar (quotes of the original message are omitted). -/
def sumScalarsLoop (valueName : String) (unit : MemUnit) (acc : ℚ) :
    List ScalarNumeric → Except String ℚ
  | [] => .ok acc
  | s :: rest =>
    if s.unit ≠ unit then
      .error ("Multiple units provided for value " ++ valueName ++
        " of different processes: " ++ unit.unitName ++ " and " ++ s.unit.unitName)
    else sumScalarsLoop valueName unit (acc + s.value) rest

/-- memory_metric.js, lines 468-481: sum the scalars recorded for one value
name across process-name groups.  The empty case cannot arise (the value
name appears in some group); in JavaScript it would crash reading
`undefined.unit`, modelled as an error. -/
def sumScalars (valueName : String) :
    List ScalarNumeric → Except String ScalarNumeric
  | [] => .error ("no scalar provided for value " ++ valueName)
  | first :: rest =>
    match sumScalarsLoop valueName first.unit 0 (first :: rest) with
    | .error e => .error e
    | .ok v => .ok ⟨first.unit, v⟩

/-- memory_metric.js, lines 464-482: the "all" group of one timestamp.  The
iteration helpers `dictionaryValues`/`invertArrayOfDicts`/`mapItems`
(base/iteration_helpers.js, not under src/) are modelled from the spec:
for each value name in first-appearance order, the scalars present in the
per-process groups are summed under a unit-agreement check. -/
def computeAllGroup (processNameToValueNameToScalar : ProcessNameDict) :
    Except String ValueDict :=
  sumEachValueName (processNameToValueNameToScalar.map Prod.snd)
    (firstAppearanceKeys (processNameToValueNameToScalar.map Prod.snd))
where
  /-- One entry of the "all" group per value name, in order. -/
  sumEachValueName (groups : List ValueDict) :
      List String → Except String ValueDict
  | [] => .ok []
  | valueName :: rest =>
    match sumScalars valueName (groups.filterMap (fun g => dictGet g valueName)) with
    | .error e => .error e
    | .ok s =>
      match sumEachValueName groups rest with
      | .error e => .error e
      | .ok out => .ok ((valueName, s) :: out)

/-- memory_metric.js, lines 460-484. -/
def injectTotalsIntoPerProcessNameMemoryDumpValues :
    List ProcessNameDict → Except String (List ProcessNameDict)
  | [] => .ok []
  | pn2v :: rest =>
    match computeAllGroup pn2v with
    | .error e => .error e
    | .ok allGroup =>
      match injectTotalsIntoPerProcessNameMemoryDumpValues rest with
      | .error e => .error e
      | .ok out => .ok (dictSet pn2v ALL_PROCESS_NAMES allGroup :: out)

/-! ### Detailed memory dump values (memory_metric.js, lines 31-52, 239-269) -/

/-- The byte stats read by the vmstats metrics; a missing entry is
undefined. -/
structure ByteStats where
  proportionalResident : Option ℚ
  privateDirtyResident : Option ℚ
deriving DecidableEq, Repr

/-- Which byte stat a vmstats metric reads. -/
inductive ByteStatKind where
  | proportionalResident
  | privateDirtyResident
deriving DecidableEq, Repr

/-- Read a byte stat. -/
def ByteStats.get (b : ByteStats) : ByteStatKind → Option ℚ
  | .proportionalResident => b.proportionalResident
  | .privateDirtyResident => b.privateDirtyResident

/-- A VM-region classification node: title, byte stats and children. -/
inductive VmRegionClassificationNode where
  | mk (title : String) (byteStats : ByteStats)
      (children : List VmRegionClassificationNode)

/-- Title accessor. -/
def VmRegionClassificationNode.title : VmRegionClassificationNode → String
  | .mk t _ _ => t

/-- Byte-stats accessor. -/
def VmRegionClassificationNode.byteStats : VmRegionClassificationNode → ByteStats
  | .mk _ b _ => b

/-- Children accessor. -/
def VmRegionClassificationNode.children :
    VmRegionClassificationNode → List VmRegionClassificationNode
  | .mk _ _ c => c

/-- A metric spec of MMAPS_METRICS: classification path and byte stat. -/
structure MmapMetricSpec where
  path : List String
  byteStat : ByteStatKind
deriving DecidableEq, Repr

/-- memory_metric.js, lines 31-52. -/
def MMAPS_METRICS : List (String × MmapMetricSpec) :=
  [("overall:pss", ⟨[], .proportionalResident⟩),
   ("overall:private_dirty", ⟨[], .privateDirtyResident⟩),
   ("java_heap:private_dirty",
     ⟨["Android", "Java runtime", "Spaces"], .privateDirtyResident⟩),
   ("ashmem:pss", ⟨["Android", "Ashmem"], .proportionalResident⟩),
   ("native_heap:pss", ⟨["Native heap"], .proportionalResident⟩)]

/-- memory_metric.js, lines 262-269: walk the classification tree along a
path of child titles; an undefined node or a missing child yields
undefined (`tr.b.findFirstInArray`, not under src/, is the first child
whose title matches). -/
def getDescendantVmRegionClassificationNode :
    Option VmRegionClassificationNode → List String →
    Option VmRegionClassificationNode
  | node, [] => node
  | none, _ :: _ => none
  | some n, t :: ts =>
    getDescendantVmRegionClassificationNode
      (n.children.find? (fun c => c.title == t)) ts

/-- The process-dump data read by the detailed extractor: the optional
VM-region classification tree. -/
structure DetailedProcessData where
  vmRegions : Option VmRegionClassificationNode

/-- memory_metric.js, lines 243-253: the detailed extractor adds one
`vmstats:` value per MMAPS_METRICS entry; a missing node or byte stat
contributes the value 0 (`node.byteStats[stat] || 0`). -/
def detailedVmstatsExtractor (pd : DetailedProcessData) :
    List (String × Option ScalarNumeric) :=
  MMAPS_METRICS.map (fun m =>
    let node := getDescendantVmRegionClassificationNode pd.vmRegions m.2.path
    let value : ℚ :=
      match node with
      | none => 0
      | some n => (n.byteStats.get m.2.byteStat).getD 0
    ("vmstats:" ++ m.1, some ⟨.sizeInBytes_smallerIsBetter, value⟩))

/-- memory_metric.js, lines 239-255 (through addPerProcessNameMemoryDump-
Values, lines 383-396): only DETAILED global dumps are processed; the
final report stage (histogram building in value/numeric.js) is outside the
embedded sources and outside the claims. -/
def addDetailedMemoryDumpValues
    (globalDumps : List (GlobalMemoryDump DetailedProcessData)) :
    Except String (List ProcessNameDict) :=
  match
    calculatePerProcessNameMemoryDumpValues detailedVmstatsExtractor
      (globalDumps.filter (fun g => g.levelOfDetail == .DETAILED))
  with
  | .error e => .error e
  | .ok t => injectTotalsIntoPerProcessNameMemoryDumpValues t

/-! ### Unique browser-name keys (memory_metric.js, lines 156-164) -/

/-- JavaScript `Map.prototype.has` on an insertion-ordered map. -/
def mapHas {α : Type} (m : List (String × α)) (k : String) : Bool :=
  m.any (fun p => p.1 == k)

/-- The while loop of makeKeyUniqueAndSet: try `key + nextIndex` for
nextIndex = 2, 3, ... until the key is free.  The JavaScript loop always
terminates because the finite map cannot contain every candidate; the fuel
`m.length + 1` is enough to reach a free candidate. -/
def uniqueKeyLoop {α : Type} (m : List (String × α)) (key : String) :
    Nat → Nat → String
  | 0, nextIndex => key ++ Nat.repr nextIndex
  | fuel + 1, nextIndex =>
    let uniqueKey := key ++ Nat.repr nextIndex
    if mapHas m uniqueKey then uniqueKeyLoop m key fuel (nextIndex + 1)
    else uniqueKey

/-- memory_metric.js, lines 156-164. -/
def makeKeyUniqueAndSet {α : Type} (m : List (String × α)) (key : String)
    (value : α) : List (String × α) :=
  let uniqueKey :=
    if mapHas m key then uniqueKeyLoop m key (m.length + 1) 2 else key
  m ++ [(uniqueKey, value)]

/-! ### Lemmas about the interpolated histogram lookup -/

/-- A point of a linear segment between two bounded values stays below the
common upper bound. -/
theorem segment_le {p2 q2 t M : ℚ} (hp : p2 ≤ M) (hq : q2 ≤ M) (ht0 : 0 ≤ t)
    (ht1 : t ≤ 1) : p2 + t * (q2 - p2) ≤ M := by
  nlinarith [mul_nonneg (by linarith : (0:ℚ) ≤ 1 - t) (by linarith : (0:ℚ) ≤ M - p2),
    mul_nonneg ht0 (by linarith : (0:ℚ) ≤ M - q2)]

/-- A point of a linear segment between two bounded values stays above the
common lower bound. -/
theorem segment_ge {p2 q2 t lo : ℚ} (hp : lo ≤ p2) (hq : lo ≤ q2) (ht0 : 0 ≤ t)
    (ht1 : t ≤ 1) : lo ≤ p2 + t * (q2 - p2) := by
  nlinarith [mul_nonneg (by linarith : (0:ℚ) ≤ 1 - t) (by linarith : (0:ℚ) ≤ p2 - lo),
    mul_nonneg ht0 (by linarith : (0:ℚ) ≤ q2 - lo)]

/-- The interpolated count never exceeds a bound dominating every count. -/
theorem interpPts_le {M : ℚ} :
    ∀ (pts : List (ℚ × ℚ)) (d : ℚ),
      List.Chain' (fun p q => p.1 < q.1) pts →
      (∀ p ∈ pts, p.2 ≤ M) → 0 ≤ M → interpPts pts d ≤ M
  | [], _, _, _, hM => by simpa [interpPts] using hM
  | [p], _, _, hmem, _ => by simpa [interpPts] using hmem p (by simp)
  | p :: q :: rest, d, hsort, hmem, hM => by
    have hpq : p.1 < q.1 := (List.chain'_cons.mp hsort).1
    have hp : p.2 ≤ M := hmem p (by simp)
    have hq : q.2 ≤ M := hmem q (by simp)
    rw [interpPts]
    by_cases h1 : d ≤ p.1
    · simpa [h1] using hp
    · by_cases h2 : d ≤ q.1
      · simp only [h1, h2, if_false, if_true]
        exact segment_le hp hq
          (div_nonneg (by linarith) (by linarith))
          ((div_le_one (by linarith)).mpr (by linarith))
      · simp only [h1, h2, if_false]
        exact interpPts_le (q :: rest) d hsort.tail
          (fun r hr => hmem r (List.mem_cons_of_mem p hr)) hM

/-- The interpolated count of a nonempty point list never drops below a
bound dominated by every count. -/
theorem interpPts_ge {lo : ℚ} :
    ∀ (pts : List (ℚ × ℚ)) (d : ℚ), pts ≠ [] →
      List.Chain' (fun p q => p.1 < q.1) pts →
      (∀ p ∈ pts, lo ≤ p.2) → lo ≤ interpPts pts d
  | [], _, hne, _, _ => absurd rfl hne
  | [p], _, _, _, hmem => by simpa [interpPts] using hmem p (by simp)
  | p :: q :: rest, d, _, hsort, hmem => by
    have hpq : p.1 < q.1 := (List.chain'_cons.mp hsort).1
    have hp : lo ≤ p.2 := hmem p (by simp)
    have hq : lo ≤ q.2 := hmem q (by simp)
    rw [interpPts]
    by_cases h1 : d ≤ p.1
    · simpa [h1] using hp
    · by_cases h2 : d ≤ q.1
      · simp only [h1, h2, if_false, if_true]
        exact segment_ge hp hq
          (div_nonneg (by linarith) (by linarith))
          ((div_le_one (by linarith)).mpr (by linarith))
      · simp only [h1, h2, if_false]
        exact interpPts_ge (q :: rest) d (by simp) hsort.tail
          (fun r hr => hmem r (List.mem_cons_of_mem p hr))

/-- Along a chain of pairwise count decreases, every count is dominated by
the head count. -/
theorem chain_anti_head :
    ∀ (p : ℚ × ℚ) (l : List (ℚ × ℚ)),
      List.Chain' (fun a b => b.2 ≤ a.2) (p :: l) →
      ∀ x ∈ p :: l, x.2 ≤ p.2
  | _, [], _, x, hx => by
    simp only [List.mem_singleton] at hx
    exact hx ▸ le_refl _
  | p, q :: l, hchain, x, hx => by
    have hqp : q.2 ≤ p.2 := (List.chain'_cons.mp hchain).1
    rcases List.mem_cons.mp hx with h | h
    · exact h ▸ le_refl _
    · exact le_trans (chain_anti_head q l hchain.tail x h) hqp

/-- If the counts decrease along the points then the interpolated count is
antitone in the looked-up value. -/
theorem interpPts_anti :
    ∀ (pts : List (ℚ × ℚ)) (d₁ d₂ : ℚ),
      List.Chain' (fun p q => p.1 < q.1) pts →
      List.Chain' (fun p q => q.2 ≤ p.2) pts →
      (∀ p ∈ pts, 0 ≤ p.2) →
      d₁ ≤ d₂ → interpPts pts d₂ ≤ interpPts pts d₁
  | [], _, _, _, _, _, _ => le_refl _
  | [_], _, _, _, _, _, _ => le_refl _
  | p :: q :: rest, d₁, d₂, hsort, hanti, hpos, hle => by
    have hpq : p.1 < q.1 := (List.chain'_cons.mp hsort).1
    have hqp : q.2 ≤ p.2 := (List.chain'_cons.mp hanti).1
    rw [interpPts, interpPts]
    by_cases h1 : d₂ ≤ p.1
    · have h1a : d₁ ≤ p.1 := le_trans hle h1
      simp [h1, h1a]
    · by_cases h2 : d₂ ≤ q.1
      · by_cases h1a : d₁ ≤ p.1
        · simp only [h1, h1a, h2, if_false, if_true]
          have ht0 : 0 ≤ (d₂ - p.1) / (q.1 - p.1) :=
            div_nonneg (by linarith) (by linarith)
          nlinarith [mul_nonneg ht0 (by linarith : (0:ℚ) ≤ p.2 - q.2)]
        · have h2a : d₁ ≤ q.1 := le_trans hle h2
          simp only [h1, h1a, h2, h2a, if_false, if_true]
          have htm : (d₁ - p.1) / (q.1 - p.1) ≤ (d₂ - p.1) / (q.1 - p.1) :=
            (div_le_div_iff_of_pos_right (by linarith)).mpr (by linarith)
          nlinarith [mul_nonneg (sub_nonneg.mpr htm) (by linarith : (0:ℚ) ≤ p.2 - q.2)]
      · have hbound : interpPts (q :: rest) d₂ ≤ q.2 :=
          interpPts_le (q :: rest) d₂ hsort.tail
            (chain_anti_head q rest hanti.tail) (hpos q (by simp))
        by_cases h1a : d₁ ≤ p.1
        · simp only [h1, h1a, h2, if_false, if_true]
          exact le_trans hbound hqp
        · by_cases h2a : d₁ ≤ q.1
          · simp only [h1, h1a, h2, h2a, if_false, if_true]
            have ht1 : (d₁ - p.1) / (q.1 - p.1) ≤ 1 :=
              (div_le_one (by linarith)).mpr (by linarith)
            have hseg : q.2 ≤ p.2 + (d₁ - p.1) / (q.1 - p.1) * (q.2 - p.2) := by
              nlinarith [mul_nonneg (by linarith : (0:ℚ) ≤ 1 - (d₁ - p.1) / (q.1 - p.1))
                (by linarith : (0:ℚ) ≤ p.2 - q.2)]
            exact le_trans hbound hseg
          · simp only [h1, h1a, h2, h2a, if_false]
            exact interpPts_anti (q :: rest) d₁ d₂ hsort.tail hanti.tail
              (fun r hr => hpos r (List.mem_cons_of_mem p hr)) hle

/-! ### Lemmas about the duration score -/

/-- If every bin count of a table lies between 0 and its `maxCount`, then so
does the interpolated count at any duration. -/
theorem getInterpolatedCountAt_bounds (H : ScoreHistogram)
    (hsort : List.Chain' (fun p q : ℚ × ℚ => p.1 < q.1) (centerPoints H))
    (hub : ∀ p ∈ centerPoints H, p.2 ≤ maxCount H)
    (hlb : ∀ p ∈ centerPoints H, 0 ≤ p.2)
    (huf : H.underflowCount ≤ maxCount H) (huf0 : 0 ≤ H.underflowCount)
    (hof : H.overflowCount ≤ maxCount H) (hof0 : 0 ≤ H.overflowCount)
    (hmc0 : 0 ≤ maxCount H) (d : ℚ) :
    0 ≤ getInterpolatedCountAt H d ∧ getInterpolatedCountAt H d ≤ maxCount H := by
  rw [getInterpolatedCountAt]
  by_cases h1 : d < histMin H
  · simp only [h1, if_true]
    exact ⟨huf0, huf⟩
  · by_cases h2 : histMax H ≤ d
    · simp only [h1, h2, if_true, if_false]
      exact ⟨hof0, hof⟩
    · simp only [h1, h2, if_false]
      refine ⟨?_, interpPts_le (centerPoints H) d hsort hub hmc0⟩
      by_cases hne : centerPoints H = []
      · simp [hne, interpPts]
      · exact interpPts_ge (centerPoints H) d hne hsort hlb

/-- If the counts of a table decrease from the underflow bin through the
central bins down to the overflow bin, then the interpolated count is
antitone in the duration. -/
theorem getInterpolatedCountAt_anti (H : ScoreHistogram)
    (hsort : List.Chain' (fun p q : ℚ × ℚ => p.1 < q.1) (centerPoints H))
    (hanti : List.Chain' (fun p q : ℚ × ℚ => q.2 ≤ p.2) (centerPoints H))
    (hpos : ∀ p ∈ centerPoints H, 0 ≤ p.2)
    (hub : ∀ p ∈ centerPoints H, p.2 ≤ H.underflowCount)
    (hlb : ∀ p ∈ centerPoints H, H.overflowCount ≤ p.2)
    (hou : H.overflowCount ≤ H.underflowCount)
    (ho0 : 0 ≤ H.overflowCount)
    {d₁ d₂ : ℚ} (hle : d₁ ≤ d₂) :
    getInterpolatedCountAt H d₂ ≤ getInterpolatedCountAt H d₁ := by
  rw [getInterpolatedCountAt, getInterpolatedCountAt]
  by_cases c1 : d₁ < histMin H
  · simp only [c1, if_true]
    by_cases c2 : d₂ < histMin H
    · simp only [c2, if_true]
      exact le_rfl
    · by_cases c3 : histMax H ≤ d₂
      · simp only [c2, c3, if_true, if_false]
        exact hou
      · simp only [c2, c3, if_false]
        exact interpPts_le (centerPoints H) d₂ hsort hub (le_trans ho0 hou)
  · have c2 : ¬ d₂ < histMin H := fun hh => c1 (lt_of_le_of_lt hle hh)
    simp only [c1, c2, if_false]
    by_cases c3 : histMax H ≤ d₁
    · have c4 : histMax H ≤ d₂ := le_trans c3 hle
      simp only [c3, c4, if_true]
      exact le_rfl
    · simp only [c3, if_false]
      by_cases c4 : histMax H ≤ d₂
      · simp only [c4, if_true]
        have hne : centerPoints H ≠ [] := by
          intro hcp
          have hbins : H.centralBins = [] := by
            cases hb : H.centralBins with
            | nil => rfl
            | cons b bs => rw [centerPoints, hb] at hcp; simp at hcp
          have hmin : histMin H = 0 := by simp [histMin, hbins]
          have hmax : histMax H = 0 := by simp [histMax, hbins]
          rw [hmin] at c1
          rw [hmax] at c3
          exact c3 (le_of_not_lt c1)
        exact interpPts_ge (centerPoints H) d₁ hne hsort hlb
      · simp only [c4, if_false]
        exact interpPts_anti (centerPoints H) d₁ d₂ hsort hanti hpos hle

/-- The duration score of a table whose counts all lie between 0 and its
positive `maxCount` lies in the unit interval. -/
theorem computeDurationResponsiveness_bounds (H : ScoreHistogram)
    (hsort : List.Chain' (fun p q : ℚ × ℚ => p.1 < q.1) (centerPoints H))
    (hub : ∀ p ∈ centerPoints H, p.2 ≤ maxCount H)
    (hlb : ∀ p ∈ centerPoints H, 0 ≤ p.2)
    (huf : H.underflowCount ≤ maxCount H) (huf0 : 0 ≤ H.underflowCount)
    (hof : H.overflowCount ≤ maxCount H) (hof0 : 0 ≤ H.overflowCount)
    (hmc : 0 < maxCount H) (d : ℚ) :
    0 ≤ computeDurationResponsiveness H d ∧
      computeDurationResponsiveness H d ≤ 1 := by
  obtain ⟨h0, h1⟩ := getInterpolatedCountAt_bounds H hsort hub hlb huf huf0 hof
    hof0 (le_of_lt hmc) d
  rw [computeDurationResponsiveness]
  exact ⟨div_nonneg h0 (le_of_lt hmc), (div_le_one hmc).mpr h1⟩

/-- The duration score of a table with decreasing counts is antitone in the
duration. -/
theorem computeDurationResponsiveness_anti (H : ScoreHistogram)
    (hsort : List.Chain' (fun p q : ℚ × ℚ => p.1 < q.1) (centerPoints H))
    (hanti : List.Chain' (fun p q : ℚ × ℚ => q.2 ≤ p.2) (centerPoints H))
    (hpos : ∀ p ∈ centerPoints H, 0 ≤ p.2)
    (hub : ∀ p ∈ centerPoints H, p.2 ≤ H.underflowCount)
    (hlb : ∀ p ∈ centerPoints H, H.overflowCount ≤ p.2)
    (hou : H.overflowCount ≤ H.underflowCount)
    (ho0 : 0 ≤ H.overflowCount)
    (hmc : 0 < maxCount H)
    {d₁ d₂ : ℚ} (hle : d₁ ≤ d₂) :
    computeDurationResponsiveness H d₂ ≤ computeDurationResponsiveness H d₁ := by
  rw [computeDurationResponsiveness, computeDurationResponsiveness]
  exact (div_le_div_iff_of_pos_right hmc).mpr
    (getInterpolatedCountAt_anti H hsort hanti hpos hub hlb hou ho0 hle)

/-- Durations outside the outermost central bins score the saturated
underflow/overflow count over `maxCount`. -/
theorem computeDurationResponsiveness_saturates (H : ScoreHistogram)
    (hmm : histMin H ≤ histMax H) (d : ℚ) :
    (d < histMin H →
      computeDurationResponsiveness H d = H.underflowCount / maxCount H) ∧
    (histMax H ≤ d →
      computeDurationResponsiveness H d = H.overflowCount / maxCount H) := by
  constructor
  · intro h
    rw [computeDurationResponsiveness, getInterpolatedCountAt]
    simp [h]
  · intro h
    have hnm : ¬ d < histMin H := not_lt.mpr (le_trans hmm h)
    rw [computeDurationResponsiveness, getInterpolatedCountAt]
    simp [hnm, h]

/-- The score bounds instantiated at the RESPONSE table. -/
theorem response_score_bounds (d : ℚ) :
    0 ≤ computeDurationResponsiveness RESPONSE_HISTOGRAM d ∧
      computeDurationResponsiveness RESPONSE_HISTOGRAM d ≤ 1 :=
  computeDurationResponsiveness_bounds RESPONSE_HISTOGRAM
    (by norm_num [centerPoints, binCenter, RESPONSE_HISTOGRAM, List.chain'_cons,
      List.chain'_singleton])
    (by norm_num [centerPoints, binCenter, RESPONSE_HISTOGRAM, maxCount,
      List.forall_mem_cons])
    (by norm_num [centerPoints, binCenter, RESPONSE_HISTOGRAM, List.forall_mem_cons])
    (by norm_num [maxCount, RESPONSE_HISTOGRAM]) (by norm_num [RESPONSE_HISTOGRAM])
    (by norm_num [maxCount, RESPONSE_HISTOGRAM]) (by norm_num [RESPONSE_HISTOGRAM])
    (by norm_num [maxCount, RESPONSE_HISTOGRAM]) d

/-- The score bounds instantiated at the FAST_RESPONSE table. -/
theorem fast_response_score_bounds (d : ℚ) :
    0 ≤ computeDurationResponsiveness FAST_RESPONSE_HISTOGRAM d ∧
      computeDurationResponsiveness FAST_RESPONSE_HISTOGRAM d ≤ 1 :=
  computeDurationResponsiveness_bounds FAST_RESPONSE_HISTOGRAM
    (by norm_num [centerPoints, binCenter, FAST_RESPONSE_HISTOGRAM, List.chain'_cons,
      List.chain'_singleton])
    (by norm_num [centerPoints, binCenter, FAST_RESPONSE_HISTOGRAM, maxCount,
      List.forall_mem_cons])
    (by norm_num [centerPoints, binCenter, FAST_RESPONSE_HISTOGRAM,
      List.forall_mem_cons])
    (by norm_num [maxCount, FAST_RESPONSE_HISTOGRAM])
    (by norm_num [FAST_RESPONSE_HISTOGRAM])
    (by norm_num [maxCount, FAST_RESPONSE_HISTOGRAM])
    (by norm_num [FAST_RESPONSE_HISTOGRAM])
    (by norm_num [maxCount, FAST_RESPONSE_HISTOGRAM]) d

/-- The score bounds instantiated at the LOAD table. -/
theorem load_score_bounds (d : ℚ) :
    0 ≤ computeDurationResponsiveness LOAD_HISTOGRAM d ∧
      computeDurationResponsiveness LOAD_HISTOGRAM d ≤ 1 :=
  computeDurationResponsiveness_bounds LOAD_HISTOGRAM
    (by norm_num [centerPoints, binCenter, LOAD_HISTOGRAM, List.chain'_cons,
      List.chain'_singleton])
    (by norm_num [centerPoints, binCenter, LOAD_HISTOGRAM, maxCount,
      List.forall_mem_cons])
    (by norm_num [centerPoints, binCenter, LOAD_HISTOGRAM, List.forall_mem_cons])
    (by norm_num [maxCount, LOAD_HISTOGRAM]) (by norm_num [LOAD_HISTOGRAM])
    (by norm_num [maxCount, LOAD_HISTOGRAM]) (by norm_num [LOAD_HISTOGRAM])
    (by norm_num [maxCount, LOAD_HISTOGRAM]) d

/-- The score antitonicity instantiated at the RESPONSE table. -/
theorem response_score_anti {d₁ d₂ : ℚ} (hle : d₁ ≤ d₂) :
    computeDurationResponsiveness RESPONSE_HISTOGRAM d₂ ≤
      computeDurationResponsiveness RESPONSE_HISTOGRAM d₁ :=
  computeDurationResponsiveness_anti RESPONSE_HISTOGRAM
    (by norm_num [centerPoints, binCenter, RESPONSE_HISTOGRAM, List.chain'_cons,
      List.chain'_singleton])
    (by norm_num [centerPoints, binCenter, RESPONSE_HISTOGRAM, List.chain'_cons,
      List.chain'_singleton])
    (by norm_num [centerPoints, binCenter, RESPONSE_HISTOGRAM, List.forall_mem_cons])
    (by norm_num [centerPoints, binCenter, RESPONSE_HISTOGRAM, List.forall_mem_cons])
    (by norm_num [centerPoints, binCenter, RESPONSE_HISTOGRAM, List.forall_mem_cons])
    (by norm_num [RESPONSE_HISTOGRAM]) (by norm_num [RESPONSE_HISTOGRAM])
    (by norm_num [maxCount, RESPONSE_HISTOGRAM]) hle

/-- The score antitonicity instantiated at the FAST_RESPONSE table. -/
theorem fast_response_score_anti {d₁ d₂ : ℚ} (hle : d₁ ≤ d₂) :
    computeDurationResponsiveness FAST_RESPONSE_HISTOGRAM d₂ ≤
      computeDurationResponsiveness FAST_RESPONSE_HISTOGRAM d₁ :=
  computeDurationResponsiveness_anti FAST_RESPONSE_HISTOGRAM
    (by norm_num [centerPoints, binCenter, FAST_RESPONSE_HISTOGRAM, List.chain'_cons,
      List.chain'_singleton])
    (by norm_num [centerPoints, binCenter, FAST_RESPONSE_HISTOGRAM, List.chain'_cons,
      List.chain'_singleton])
    (by norm_num [centerPoints, binCenter, FAST_RESPONSE_HISTOGRAM,
      List.forall_mem_cons])
    (by norm_num [centerPoints, binCenter, FAST_RESPONSE_HISTOGRAM,
      List.forall_mem_cons])
    (by norm_num [centerPoints, binCenter, FAST_RESPONSE_HISTOGRAM,
      List.forall_mem_cons])
    (by norm_num [FAST_RESPONSE_HISTOGRAM]) (by norm_num [FAST_RESPONSE_HISTOGRAM])
    (by norm_num [maxCount, FAST_RESPONSE_HISTOGRAM]) hle

/-- The score antitonicity instantiated at the LOAD table. -/
theorem load_score_anti {d₁ d₂ : ℚ} (hle : d₁ ≤ d₂) :
    computeDurationResponsiveness LOAD_HISTOGRAM d₂ ≤
      computeDurationResponsiveness LOAD_HISTOGRAM d₁ :=
  computeDurationResponsiveness_anti LOAD_HISTOGRAM
    (by norm_num [centerPoints, binCenter, LOAD_HISTOGRAM, List.chain'_cons,
      List.chain'_singleton])
    (by norm_num [centerPoints, binCenter, LOAD_HISTOGRAM, List.chain'_cons,
      List.chain'_singleton])
    (by norm_num [centerPoints, binCenter, LOAD_HISTOGRAM, List.forall_mem_cons])
    (by norm_num [centerPoints, binCenter, LOAD_HISTOGRAM, List.forall_mem_cons])
    (by norm_num [centerPoints, binCenter, LOAD_HISTOGRAM, List.forall_mem_cons])
    (by norm_num [LOAD_HISTOGRAM]) (by norm_num [LOAD_HISTOGRAM])
    (by norm_num [maxCount, LOAD_HISTOGRAM]) hle

/-! ### Claims C1 and C3 -/

/-- C1, counterexample: the duration score is NOT monotonically
non-decreasing within the covered range of the LOAD table: at the in-range
durations 3950 and 9850 the score drops from 901/1000 to 574/1000. -/
theorem C1_counterexample :
    ¬ (∀ d₁ d₂ : ℚ, histMin LOAD_HISTOGRAM ≤ d₁ → d₁ ≤ d₂ →
        d₂ ≤ histMax LOAD_HISTOGRAM →
        computeDurationResponsiveness LOAD_HISTOGRAM d₁ ≤
          computeDurationResponsiveness LOAD_HISTOGRAM d₂) := by
  intro h
  have h1 := h 3950 9850 (by norm_num [histMin, LOAD_HISTOGRAM]) (by norm_num)
    (by norm_num [histMax, LOAD_HISTOGRAM])
  have e1 : computeDurationResponsiveness LOAD_HISTOGRAM 3950 = 901/1000 := by
    norm_num [computeDurationResponsiveness, getInterpolatedCountAt, histMin,
      histMax, LOAD_HISTOGRAM, centerPoints, binCenter, interpPts, maxCount]
  have e2 : computeDurationResponsiveness LOAD_HISTOGRAM 9850 = 574/1000 := by
    norm_num [computeDurationResponsiveness, getInterpolatedCountAt, histMin,
      histMax, LOAD_HISTOGRAM, centerPoints, binCenter, interpPts, maxCount]
  rw [e1, e2] at h1
  norm_num at h1

/-- C1, amended: for each of the three scoring tables the duration score
computeDurationResponsiveness(table, d) is monotonically non-INcreasing as
d increases (everywhere, in particular within the covered range). -/
theorem C1_amended_score_antitone (d₁ d₂ : ℚ) (hle : d₁ ≤ d₂) :
    computeDurationResponsiveness RESPONSE_HISTOGRAM d₂ ≤
      computeDurationResponsiveness RESPONSE_HISTOGRAM d₁ ∧
    computeDurationResponsiveness FAST_RESPONSE_HISTOGRAM d₂ ≤
      computeDurationResponsiveness FAST_RESPONSE_HISTOGRAM d₁ ∧
    computeDurationResponsiveness LOAD_HISTOGRAM d₂ ≤
      computeDurationResponsiveness LOAD_HISTOGRAM d₁ :=
  ⟨response_score_anti hle, fast_response_score_anti hle, load_score_anti hle⟩

/-- C1, witness: the amended antitonicity applied at the concrete pair
150 ≤ 5000. -/
theorem C1_witness :
    (150 : ℚ) ≤ 5000 ∧
    (computeDurationResponsiveness RESPONSE_HISTOGRAM 5000 ≤
        computeDurationResponsiveness RESPONSE_HISTOGRAM 150 ∧
      computeDurationResponsiveness FAST_RESPONSE_HISTOGRAM 5000 ≤
        computeDurationResponsiveness FAST_RESPONSE_HISTOGRAM 150 ∧
      computeDurationResponsiveness LOAD_HISTOGRAM 5000 ≤
        computeDurationResponsiveness LOAD_HISTOGRAM 150) :=
  ⟨by norm_num, C1_amended_score_antitone 150 5000 (by norm_num)⟩

/-- C3: for each of the three scoring tables and every duration d the
duration score lies in the closed interval [0,1], and durations beyond the
outermost central bins saturate at the underflow/overflow count (divided
by the fixed normalization constant maxCount). -/
theorem C3_score_in_unit_interval (d : ℚ) :
    (0 ≤ computeDurationResponsiveness RESPONSE_HISTOGRAM d ∧
      computeDurationResponsiveness RESPONSE_HISTOGRAM d ≤ 1) ∧
    (0 ≤ computeDurationResponsiveness FAST_RESPONSE_HISTOGRAM d ∧
      computeDurationResponsiveness FAST_RESPONSE_HISTOGRAM d ≤ 1) ∧
    (0 ≤ computeDurationResponsiveness LOAD_HISTOGRAM d ∧
      computeDurationResponsiveness LOAD_HISTOGRAM d ≤ 1) ∧
    (d < histMin RESPONSE_HISTOGRAM →
      computeDurationResponsiveness RESPONSE_HISTOGRAM d =
        RESPONSE_HISTOGRAM.underflowCount / maxCount RESPONSE_HISTOGRAM) ∧
    (histMax RESPONSE_HISTOGRAM ≤ d →
      computeDurationResponsiveness RESPONSE_HISTOGRAM d =
        RESPONSE_HISTOGRAM.overflowCount / maxCount RESPONSE_HISTOGRAM) ∧
    (d < histMin FAST_RESPONSE_HISTOGRAM →
      computeDurationResponsiveness FAST_RESPONSE_HISTOGRAM d =
        FAST_RESPONSE_HISTOGRAM.underflowCount / maxCount FAST_RESPONSE_HISTOGRAM) ∧
    (histMax FAST_RESPONSE_HISTOGRAM ≤ d →
      computeDurationResponsiveness FAST_RESPONSE_HISTOGRAM d =
        FAST_RESPONSE_HISTOGRAM.overflowCount / maxCount FAST_RESPONSE_HISTOGRAM) ∧
    (d < histMin LOAD_HISTOGRAM →
      computeDurationResponsiveness LOAD_HISTOGRAM d =
        LOAD_HISTOGRAM.underflowCount / maxCount LOAD_HISTOGRAM) ∧
    (histMax LOAD_HISTOGRAM ≤ d →
      computeDurationResponsiveness LOAD_HISTOGRAM d =
        LOAD_HISTOGRAM.overflowCount / maxCount LOAD_HISTOGRAM) := by
  refine ⟨response_score_bounds d, fast_response_score_bounds d,
    load_score_bounds d, ?_, ?_, ?_, ?_, ?_, ?_⟩
  · exact (computeDurationResponsiveness_saturates RESPONSE_HISTOGRAM
      (by norm_num [histMin, histMax, RESPONSE_HISTOGRAM]) d).1
  · exact (computeDurationResponsiveness_saturates RESPONSE_HISTOGRAM
      (by norm_num [histMin, histMax, RESPONSE_HISTOGRAM]) d).2
  · exact (computeDurationResponsiveness_saturates FAST_RESPONSE_HISTOGRAM
      (by norm_num [histMin, histMax, FAST_RESPONSE_HISTOGRAM]) d).1
  · exact (computeDurationResponsiveness_saturates FAST_RESPONSE_HISTOGRAM
      (by norm_num [histMin, histMax, FAST_RESPONSE_HISTOGRAM]) d).2
  · exact (computeDurationResponsiveness_saturates LOAD_HISTOGRAM
      (by norm_num [histMin, histMax, LOAD_HISTOGRAM]) d).1
  · exact (computeDurationResponsiveness_saturates LOAD_HISTOGRAM
      (by norm_num [histMin, histMax, LOAD_HISTOGRAM]) d).2

/-- C3, witness: the unit-interval bounds and underflow saturation applied
at the concrete duration 10. -/
theorem C3_witness :
    (10 : ℚ) < histMin RESPONSE_HISTOGRAM ∧
    computeDurationResponsiveness RESPONSE_HISTOGRAM 10 =
      RESPONSE_HISTOGRAM.underflowCount / maxCount RESPONSE_HISTOGRAM ∧
    0 ≤ computeDurationResponsiveness LOAD_HISTOGRAM 10 ∧
    computeDurationResponsiveness LOAD_HISTOGRAM 10 ≤ 1 := by
  have h := C3_score_in_unit_interval 10
  have hlt : (10 : ℚ) < histMin RESPONSE_HISTOGRAM := by
    norm_num [histMin, RESPONSE_HISTOGRAM]
  exact ⟨hlt, h.2.2.2.1 hlt, (h.2.2.1).1, (h.2.2.1).2⟩

/-! ### Claim C4: animation throughput -/

/-- C4: for an Animation expectation with N frame events the throughput
sub-score is 1 when the duration corresponds to exactly 60 fps, is 0
whenever the average frame rate is at or below 10 fps, and is clamped to
[0,1] in general. -/
theorem C4_animation_throughput (a : AnimationExpectation) (fs : List ℚ)
    (hfe : a.frameEvents = some fs) (hne : fs ≠ []) :
    (a.base.duration = (fs.length : ℚ) * (1000 / 60) →
      computeAnimationThroughput a = .ok 1) ∧
    (0 < a.base.duration → (fs.length : ℚ) * 1000 / a.base.duration ≤ 10 →
      computeAnimationThroughput a = .ok 0) ∧
    (∀ v : ℚ, computeAnimationThroughput a = .ok v → 0 ≤ v ∧ v ≤ 1) := by
  have hlen0 : fs.length ≠ 0 := fun h => hne (List.length_eq_zero.mp h)
  have hlenq : (0 : ℚ) < (fs.length : ℚ) := by
    exact_mod_cast Nat.pos_of_ne_zero hlen0
  refine ⟨?_, ?_, ?_⟩
  · intro hdur
    rw [computeAnimationThroughput, hfe]
    simp only [hlen0, if_false]
    have havg : a.base.duration / 1000 / (fs.length : ℚ) = 1 / 60 := by
      rw [hdur]
      field_simp
      ring
    rw [havg]
    norm_num [normalize, clamp, MAX_FPS, MIN_FPS]
  · intro hd hfps
    rw [computeAnimationThroughput, hfe]
    simp only [hlen0, if_false]
    have havg : 1 / 10 ≤ a.base.duration / 1000 / (fs.length : ℚ) := by
      rw [div_le_iff₀ hd] at hfps
      rw [le_div_iff₀ hlenq, le_div_iff₀ (by norm_num : (0:ℚ) < 1000)]
      linarith
    have hnorm : 1 ≤ normalize (a.base.duration / 1000 / (fs.length : ℚ))
        (1 / MAX_FPS) (1 / MIN_FPS) := by
      rw [normalize, MAX_FPS, MIN_FPS]
      rw [le_div_iff₀ (by norm_num : (0:ℚ) < 1/10 - 1/60)]
      linarith
    rw [clamp]
    congr 1
    have : 1 - normalize (a.base.duration / 1000 / (fs.length : ℚ))
        (1 / MAX_FPS) (1 / MIN_FPS) ≤ 0 := by linarith
    rw [max_eq_left this]
    exact min_eq_right (by norm_num)
  · intro v hv
    rw [computeAnimationThroughput, hfe] at hv
    simp only [hlen0, if_false, Except.ok.injEq] at hv
    rw [← hv, clamp]
    constructor
    · exact le_min (by norm_num) (le_max_left 0 _)
    · exact min_le_left 1 _

/-- C4, witness: the three throughput properties applied to a concrete
two-frame animation of duration 2·(1000/60) ms (for the 60 fps case) and a
concrete two-frame animation of duration 1000 ms (for the ≤ 10 fps case). -/
theorem C4_witness :
    computeAnimationThroughput ⟨⟨"Animation/1", "Animation", "", 2 * (1000 / 60)⟩,
      some [0, 16]⟩ = .ok 1 ∧
    computeAnimationThroughput ⟨⟨"Animation/2", "Animation", "", 1000⟩,
      some [0, 500]⟩ = .ok 0 := by
  constructor
  · exact (C4_animation_throughput _ [0, 16] rfl (by simp)).1 (by norm_num)
  · exact (C4_animation_throughput _ [0, 500] rfl (by simp)).2.1 (by norm_num)
      (by norm_num)

/-! ### Lemmas about the responsiveness traversal -/

/-- Idle expectations leave no trace in the score traversal: filtering them
out first yields the same result. -/
theorem collectScores_filter (blend : ℚ → ℚ) (disc : List ℚ → ℚ) :
    ∀ ues : List UserExpectation,
      collectScores blend disc (ues.filter (fun ue => !ue.isIdle)) =
        collectScores blend disc ues
  | [] => rfl
  | ue :: rest => by
    cases hI : ue.isIdle with
    | true =>
      rw [List.filter_cons]
      simp only [hI, Bool.not_true, if_false, Bool.false_eq_true]
      rw [collectScores]
      simp only [hI, if_true]
      exact collectScores_filter blend disc rest
    | false =>
      rw [List.filter_cons]
      simp only [hI, Bool.not_false, if_true]
      rw [collectScores, collectScores]
      simp only [hI, Bool.false_eq_true, if_false]
      rw [collectScores_filter blend disc rest]

/-- Every non-idle expectation of a successful traversal was scored
successfully. -/
theorem collectScores_ok_mem (blend : ℚ → ℚ) (disc : List ℚ → ℚ) :
    ∀ (ues : List UserExpectation) (r : List ℚ × List DiagValue),
      collectScores blend disc ues = .ok r →
      ∀ ue ∈ ues, ue.isIdle = false →
        ∃ v, computeResponsiveness blend disc ue = .ok v
  | [], _, _, ue, hmem, _ => absurd hmem (List.not_mem_nil ue)
  | ue0 :: rest, r, hok, ue, hmem, hnotIdle => by
    rw [collectScores] at hok
    rcases List.mem_cons.mp hmem with h | h
    · subst h
      simp only [hnotIdle, Bool.false_eq_true, if_false] at hok
      cases hcr : computeResponsiveness blend disc ue with
      | error e => rw [hcr] at hok; exact absurd hok (by simp)
      | ok v => exact ⟨v, rfl⟩
    · by_cases hI : ue0.isIdle
      · rw [if_pos hI] at hok
        exact collectScores_ok_mem blend disc rest r hok ue h hnotIdle
      · rw [if_neg hI] at hok
        cases hcr : computeResponsiveness blend disc ue0 with
        | error e => rw [hcr] at hok; exact absurd hok (by simp)
        | ok v =>
          rw [hcr] at hok
          cases hcs : collectScores blend disc rest with
          | error e => rw [hcs] at hok; exact absurd hok (by simp)
          | ok r2 =>
            exact collectScores_ok_mem blend disc rest r2 hcs ue h hnotIdle

/-- A successful traversal produces one score per non-idle expectation. -/
theorem collectScores_length (blend : ℚ → ℚ) (disc : List ℚ → ℚ) :
    ∀ (ues : List UserExpectation) (scores : List ℚ) (diags : List DiagValue),
      collectScores blend disc ues = .ok (scores, diags) →
      scores.length = (ues.filter (fun ue => !ue.isIdle)).length
  | [], scores, diags, hok => by
    rw [collectScores] at hok
    simp only [Except.ok.injEq, Prod.mk.injEq] at hok
    rw [← hok.1]
    rfl
  | ue :: rest, scores, diags, hok => by
    rw [collectScores] at hok
    rw [List.filter_cons]
    cases hI : ue.isIdle with
    | true =>
      rw [hI] at hok
      simp only [if_true] at hok
      simp only [Bool.not_true, Bool.false_eq_true, if_false]
      exact collectScores_length blend disc rest scores diags hok
    | false =>
      rw [hI] at hok
      simp only [Bool.false_eq_true, if_false] at hok
      simp only [Bool.not_false, if_true]
      cases hcr : computeResponsiveness blend disc ue with
      | error e => rw [hcr] at hok; exact absurd hok (by simp)
      | ok v =>
        rw [hcr] at hok
        cases hcs : collectScores blend disc rest with
        | error e => rw [hcs] at hok; exact absurd hok (by simp)
        | ok r2 =>
          rw [hcs] at hok
          simp only [Except.ok.injEq, Prod.mk.injEq] at hok
          rw [← hok.1]
          simp only [List.length_cons]
          rw [collectScores_length blend disc rest r2.1 r2.2 (by rw [hcs])]

/-- The weighted mean of a nonempty list under positive weights exists. -/
theorem weightedMean_pos_isSome (xs : List ℚ) (w : ℚ → ℚ) (hne : xs ≠ [])
    (hpos : ∀ x, 0 < w x) : ∃ m, weightedMean xs w = some m := by
  have hsum : 0 < (xs.map w).sum := by
    apply List.sum_pos
    · intro x hx
      rcases List.mem_map.mp hx with ⟨y, _, rfl⟩
      exact hpos y
    · exact fun h => hne (List.map_eq_nil_iff.mp h)
  refine ⟨(xs.map (fun x => w x * x)).sum / (xs.map w).sum, ?_⟩
  rw [weightedMean]
  simp only [ne_of_gt hsum, if_false]

/-! ### Claims C7, C8 and C9 -/

/-- C7: an Animation expectation with an absent or empty frame-event
sequence makes both the throughput and the smoothness computation raise an
error naming its stable id, and any responsiveness-metric run over a model
containing it aborts with an error (hence no partial output). -/
theorem C7_missing_frame_events (blend : ℚ → ℚ) (disc : List ℚ → ℚ)
    (a : AnimationExpectation)
    (hmiss : a.frameEvents = none ∨ a.frameEvents = some []) :
    computeAnimationThroughput a =
      .error ("Animation missing frameEvents " ++ a.base.stableId) ∧
    computeAnimationSmoothness disc a =
      .error ("Animation missing frameEvents " ++ a.base.stableId) ∧
    ∀ ues : List UserExpectation, UserExpectation.animation a ∈ ues →
      ∃ e, responsivenessMetric blend disc ues = .error e := by
  have hthr : computeAnimationThroughput a =
      .error ("Animation missing frameEvents " ++ a.base.stableId) := by
    rcases hmiss with h | h <;> simp [computeAnimationThroughput, h]
  have hsmo : computeAnimationSmoothness disc a =
      .error ("Animation missing frameEvents " ++ a.base.stableId) := by
    rcases hmiss with h | h <;> simp [computeAnimationSmoothness, h]
  refine ⟨hthr, hsmo, ?_⟩
  intro ues hmem
  have hcr : computeResponsiveness blend disc (.animation a) =
      .error ("Animation missing frameEvents " ++ a.base.stableId) := by
    rw [computeResponsiveness, computeAnimationResponsiveness, hthr]
  cases hcs : collectScores blend disc ues with
  | error e =>
    exact ⟨e, by rw [responsivenessMetric, hcs]⟩
  | ok r =>
    exfalso
    obtain ⟨v, hv⟩ :=
      collectScores_ok_mem blend disc ues r hcs (.animation a) hmem rfl
    rw [hcr] at hv
    exact absurd hv (by simp)

/-- C7, witness: the three failure properties applied to a concrete
animation without frame events inside a one-element model. -/
theorem C7_witness :
    computeAnimationThroughput ⟨⟨"Animation/3", "Animation", "", 100⟩, none⟩ =
      .error ("Animation missing frameEvents " ++ "Animation/3") ∧
    ∃ e, responsivenessMetric (fun _ => 1) (fun _ => 0)
      [.animation ⟨⟨"Animation/3", "Animation", "", 100⟩, none⟩] = .error e := by
  have h := C7_missing_frame_events (fun _ => 1) (fun _ => 0)
    ⟨⟨"Animation/3", "Animation", "", 100⟩, none⟩ (Or.inl rfl)
  exact ⟨h.1, h.2.2 _ (by simp)⟩

/-- C8: the responsiveness metric gives the same result with and without
the Idle expectations of the model (so an Idle expectation never receives
a responsiveness value and never contributes to the overall blend), and
handing an Idle expectation directly to the per-expectation scorer is a
fatal error. -/
theorem C8_idle_excluded (blend : ℚ → ℚ) (disc : List ℚ → ℚ)
    (ues : List UserExpectation) :
    responsivenessMetric blend disc ues =
      responsivenessMetric blend disc (ues.filter (fun ue => !ue.isIdle)) ∧
    ∀ e : ExpBase, computeResponsiveness blend disc (.idle e) =
      .error "Responsiveness is not defined for Idle" := by
  constructor
  · rw [responsivenessMetric, responsivenessMetric, collectScores_filter]
  · intro e
    rfl

/-- C9: with zero scoreable (non-Idle) expectations the responsiveness
metric emits no value and raises no error; with at least one scoreable
expectation, a successful run emits exactly one overall value, named
"responsiveness". -/
theorem C9_zero_scoreable (blend : ℚ → ℚ) (disc : List ℚ → ℚ)
    (ues : List UserExpectation) :
    (ues.filter (fun ue => !ue.isIdle) = [] →
      responsivenessMetric blend disc ues = .ok []) ∧
    ((∀ x, 0 < blend x) → ues.filter (fun ue => !ue.isIdle) ≠ [] →
      ∀ vs, responsivenessMetric blend disc ues = .ok vs →
        ∃ ov : OverallValue, vs = [ov] ∧ ov.name = "responsiveness") := by
  constructor
  · intro hfil
    have h := collectScores_filter blend disc ues
    rw [hfil] at h
    rw [responsivenessMetric, ← h]
    rw [collectScores]
    simp [weightedMean]
  · intro hpos hne vs hok
    cases hcs : collectScores blend disc ues with
    | error e =>
      rw [responsivenessMetric, hcs] at hok
      exact absurd hok (by simp)
    | ok r =>
      obtain ⟨scores, diags⟩ := r
      have hlen : scores.length = (ues.filter (fun ue => !ue.isIdle)).length :=
        collectScores_length blend disc ues scores diags (by rw [hcs])
      have hscne : scores ≠ [] := by
        intro h0
        rw [h0] at hlen
        exact hne (List.length_eq_zero.mp hlen.symm)
      obtain ⟨m, hm⟩ := weightedMean_pos_isSome scores blend hscne hpos
      rw [responsivenessMetric, hcs] at hok
      dsimp only at hok
      rw [hm] at hok
      simp only [Except.ok.injEq] at hok
      exact ⟨⟨"responsiveness", m, diags⟩, hok.symm, rfl⟩

/-- C9, witness: the no-op on an all-idle model and the single emitted
value on a one-load model, at concrete inputs. -/
theorem C9_witness :
    responsivenessMetric (fun _ => 1) (fun _ => 0)
      [.idle ⟨"Idle/1", "Idle", "", 10⟩] = .ok [] ∧
    ∃ ov : OverallValue,
      (match responsivenessMetric (fun _ => 1) (fun _ => 0)
          [.load ⟨"Load/1", "Load", "", 2000⟩] with
        | .ok vs => vs
        | .error _ => []) = [ov] ∧ ov.name = "responsiveness" := by
  constructor
  · exact (C9_zero_scoreable (fun _ => 1) (fun _ => 0)
      [.idle ⟨"Idle/1", "Idle", "", 10⟩]).1 (by rfl)
  · have h2 := (C9_zero_scoreable (fun _ => 1) (fun _ => 0)
      [.load ⟨"Load/1", "Load", "", 2000⟩]).2 (fun _ => by norm_num)
      (by simp [UserExpectation.isIdle])
    cases hres : responsivenessMetric (fun _ => 1) (fun _ => 0)
        [.load ⟨"Load/1", "Load", "", 2000⟩] with
    | error e =>
      exfalso
      rw [responsivenessMetric] at hres
      rw [show collectScores (fun _ => 1) (fun _ => 0)
          [.load ⟨"Load/1", "Load", "", 2000⟩] =
          .ok ([computeDurationResponsiveness LOAD_HISTOGRAM 2000],
            [⟨"responsiveness", computeDurationResponsiveness LOAD_HISTOGRAM 2000,
              ⟨"Load/1", "Load", ""⟩⟩]) from rfl] at hres
      dsimp only at hres
      rw [show weightedMean [computeDurationResponsiveness LOAD_HISTOGRAM 2000]
          (fun _ => 1) = some (computeDurationResponsiveness LOAD_HISTOGRAM 2000 / 1)
          from by rw [weightedMean]; norm_num] at hres
      exact absurd hres (by simp)
    | ok vs =>
      obtain ⟨ov, hov, hname⟩ := h2 vs hres
      exact ⟨ov, by rw [hov], hname⟩

/-! ### Claim C2: process-name aggregation keys -/

/-- C2, counterexample: the key of the process name "A B C" is "a_b c" —
the code lowercases and replaces only the FIRST space, and with an
underscore, so the claimed "spaces collapsed" key (under any reading:
spaces removed, spaces kept, or all spaces replaced) disagrees. -/
theorem C2_counterexample :
    processNameKey (some "A B C") = "a_b c" ∧
    processNameKey (some "A B C") ≠ "abc" ∧
    processNameKey (some "A B C") ≠ "a b c" ∧
    processNameKey (some "A B C") ≠ "a_b_c" :=
  ⟨by decide, by decide, by decide, by decide⟩

/-- C2 (amended): the aggregation key is the process name lowercased with
the first space replaced by an underscore, defaulting to "unknown" when
the name is absent or empty; two process samples named "Browser" and
"browser" in the same snapshot are merged into one "browser" group whose
same-named values are summed. -/
theorem C2_amended_process_name_key :
    processNameKey none = "unknown" ∧
    processNameKey (some "") = "unknown" ∧
    processNameKey (some "Browser") = "browser" ∧
    processNameKey (some "New Tab Page") = "new_tab page" ∧
    calculatePerProcessNameMemoryDumpValues (fun d => d)
      [⟨.LIGHT, [⟨some "Browser", [("x", some ⟨.sizeInBytes_smallerIsBetter, 3⟩)]⟩,
                 ⟨some "browser", [("x", some ⟨.sizeInBytes_smallerIsBetter, 5⟩)]⟩]⟩] =
      .ok [[("browser", [("x", ⟨.sizeInBytes_smallerIsBetter, 8⟩)])]] := by
  refine ⟨by decide, by decide, by decide, by decide, ?_⟩
  have h1 : processNameKey (some "Browser") = "browser" := by decide
  have h2 : processNameKey (some "browser") = "browser" := by decide
  norm_num [calculatePerProcessNameMemoryDumpValues, aggregateProcessDumps,
    addProcessScalars, addProcessScalar, dictGet, dictSet, h1, h2]

/-! ### Claim C5: unique browser-name keys -/

/-- The while loop of makeKeyUniqueAndSet returns the key suffixed with the
smallest index at or after the start index whose key is free, provided a
free candidate lies within the fuel. -/
theorem uniqueKeyLoop_spec {α : Type} (m : List (String × α)) (key : String) :
    ∀ (fuel n₀ j : Nat), n₀ ≤ j → j ≤ n₀ + fuel →
      mapHas m (key ++ Nat.repr j) = false →
      ∃ n, n₀ ≤ n ∧ n ≤ j ∧ mapHas m (key ++ Nat.repr n) = false ∧
        (∀ i, n₀ ≤ i → i < n → mapHas m (key ++ Nat.repr i) = true) ∧
        uniqueKeyLoop m key fuel n₀ = key ++ Nat.repr n
  | 0, n₀, j, hlo, hhi, hfree => by
    have hj : j = n₀ := le_antisymm (by simpa using hhi) hlo
    subst hj
    exact ⟨j, le_rfl, le_rfl, hfree, fun i h1 h2 => absurd (lt_of_le_of_lt h1 h2)
      (lt_irrefl j), rfl⟩
  | fuel + 1, n₀, j, hlo, hhi, hfree => by
    rw [uniqueKeyLoop]
    cases hhas : mapHas m (key ++ Nat.repr n₀) with
    | false =>
      simp only [hhas, Bool.false_eq_true, if_false]
      exact ⟨n₀, le_rfl, hlo, hhas, fun i h1 h2 => absurd (lt_of_le_of_lt h1 h2)
        (lt_irrefl n₀), rfl⟩
    | true =>
      simp only [hhas, if_true]
      have hne : j ≠ n₀ := by
        intro hj
        rw [← hj, hfree] at hhas
        exact Bool.false_ne_true hhas
      have hlo2 : n₀ + 1 ≤ j := Nat.succ_le_of_lt (lt_of_le_of_ne hlo (Ne.symm hne))
      have hhi2 : j ≤ n₀ + 1 + fuel := by omega
      obtain ⟨n, h1, h2, h3, h4, h5⟩ :=
        uniqueKeyLoop_spec m key fuel (n₀ + 1) j hlo2 hhi2 hfree
      refine ⟨n, le_trans (Nat.le_succ n₀) h1, h2, h3, ?_, h5⟩
      intro i hi1 hi2
      rcases Nat.eq_or_lt_of_le hi1 with h | h
      · rw [← h]
        exact hhas
      · exact h4 i (Nat.succ_le_of_lt h) hi2

/-- C5: when a browser-name key collides, makeKeyUniqueAndSet appends the
smallest integer suffix ≥ 2 whose resulting key is unused (in first-seen
order, the entry being appended at the end of the map); in particular two
browsers both named "chrome" yield the keys "chrome" and "chrome2". -/
theorem C5_unique_key :
    (∀ (v1 v2 : Nat),
      makeKeyUniqueAndSet (makeKeyUniqueAndSet [] "chrome" v1) "chrome" v2 =
        [("chrome", v1), ("chrome2", v2)]) ∧
    (∀ (α : Type) (m : List (String × α)) (key : String) (v : α) (j : Nat),
      2 ≤ j → j ≤ m.length + 3 → mapHas m (key ++ Nat.repr j) = false →
      (mapHas m key = false → makeKeyUniqueAndSet m key v = m ++ [(key, v)]) ∧
      (mapHas m key = true → ∃ n, 2 ≤ n ∧ n ≤ j ∧
        mapHas m (key ++ Nat.repr n) = false ∧
        (∀ i, 2 ≤ i → i < n → mapHas m (key ++ Nat.repr i) = true) ∧
        makeKeyUniqueAndSet m key v = m ++ [(key ++ Nat.repr n, v)])) := by
  constructor
  · intro v1 v2
    rfl
  · intro α m key v j hj2 hjle hfree
    constructor
    · intro hhas
      rw [makeKeyUniqueAndSet]
      simp only [hhas, Bool.false_eq_true, if_false]
    · intro hhas
      obtain ⟨n, h1, h2, h3, h4, h5⟩ :=
        uniqueKeyLoop_spec m key (m.length + 1) 2 j hj2 (by omega) hfree
      refine ⟨n, h1, h2, h3, h4, ?_⟩
      rw [makeKeyUniqueAndSet]
      simp only [hhas, if_true, h5]

/-- C5, witness: the unique-key properties applied at the concrete map
[("k", 0)], key "k" and free suffix 2. -/
theorem C5_witness :
    makeKeyUniqueAndSet (makeKeyUniqueAndSet [] "chrome" (0:Nat)) "chrome" 1 =
      [("chrome", 0), ("chrome2", 1)] ∧
    ∃ n, 2 ≤ n ∧ n ≤ 2 ∧
      mapHas [("k", (0:Nat))] ("k" ++ Nat.repr n) = false ∧
      (∀ i, 2 ≤ i → i < n → mapHas [("k", (0:Nat))] ("k" ++ Nat.repr i) = true) ∧
      makeKeyUniqueAndSet [("k", (0:Nat))] "k" 5 =
        [("k", (0:Nat))] ++ [("k" ++ Nat.repr n, 5)] :=
  ⟨C5_unique_key.1 0 1,
    (C5_unique_key.2 Nat [("k", 0)] "k" 5 2 (by decide) (by decide) (by decide)).2
      (by decide)⟩

/-! ### Claim C6: unit mismatches are fatal -/

/-- The totals reduce aborts with an error as soon as some scalar in the
list carries a unit different from the reference unit. -/
theorem sumScalarsLoop_mismatch (valueName : String) (unit : MemUnit) :
    ∀ (scalars : List ScalarNumeric) (acc : ℚ),
      (∃ s ∈ scalars, s.unit ≠ unit) →
      ∃ e, sumScalarsLoop valueName unit acc scalars = .error e
  | [], _, h => absurd h (by simp)
  | s :: rest, acc, h => by
    rw [sumScalarsLoop]
    by_cases hs : s.unit = unit
    · rw [if_neg (by simp [hs] : ¬ s.unit ≠ unit)]
      rcases h with ⟨s2, hmem, hne⟩
      rcases List.mem_cons.mp hmem with h2 | h2
      · exact absurd (h2 ▸ hne) (by simp [hs])
      · exact sumScalarsLoop_mismatch valueName unit rest (acc + s.value) ⟨s2, h2, hne⟩
    · rw [if_pos hs]
      exact ⟨_, rfl⟩

/-- C6: summing two ScalarNumerics under one value name is a fatal error
whenever their units differ — in the per-process-name sums and in the
synthetic "all" totals alike; in particular a sizeInBytes and a unitless
scalar under the value name "x" abort both stages. -/
theorem C6_unit_mismatch :
    (∀ (processName name : String) (g : ValueDict) (s old : ScalarNumeric),
      dictGet g name = some old → s.unit ≠ old.unit →
      ∃ e, addProcessScalar processName g name (some s) = .error e) ∧
    (∀ (valueName : String) (first : ScalarNumeric) (rest : List ScalarNumeric),
      (∃ s ∈ rest, s.unit ≠ first.unit) →
      ∃ e, sumScalars valueName (first :: rest) = .error e) ∧
    calculatePerProcessNameMemoryDumpValues (fun d => d)
      [⟨.LIGHT, [⟨some "browser", [("x", some ⟨.sizeInBytes_smallerIsBetter, 1⟩)]⟩,
                 ⟨some "Browser",
                   [("x", some ⟨.unitlessNumber_smallerIsBetter, 1⟩)]⟩]⟩] =
      .error ("Multiple units provided for value x of browser processes: " ++
        "sizeInBytes_smallerIsBetter and unitlessNumber_smallerIsBetter") ∧
    injectTotalsIntoPerProcessNameMemoryDumpValues
      [[("browser", [("x", ⟨.sizeInBytes_smallerIsBetter, 1⟩)]),
        ("renderer", [("x", ⟨.unitlessNumber_smallerIsBetter, 1⟩)])]] =
      .error ("Multiple units provided for value x of different processes: " ++
        "sizeInBytes_smallerIsBetter and unitlessNumber_smallerIsBetter") := by
  refine ⟨?_, ?_, ?_, ?_⟩
  · intro processName name g s old hget hne
    rw [addProcessScalar, hget]
    simp only [if_pos hne]
    exact ⟨_, rfl⟩
  · intro valueName first rest hmis
    obtain ⟨e, he⟩ := sumScalarsLoop_mismatch valueName first.unit (first :: rest) 0
      (by rcases hmis with ⟨s, hmem, hne⟩; exact ⟨s, List.mem_cons_of_mem first hmem, hne⟩)
    rw [sumScalars, he]
    exact ⟨e, rfl⟩
  · have h1 : processNameKey (some "Browser") = "browser" := by decide
    have h2 : processNameKey (some "browser") = "browser" := by decide
    have hu : (MemUnit.unitlessNumber_smallerIsBetter =
        MemUnit.sizeInBytes_smallerIsBetter) = False := eq_false (by decide)
    norm_num [calculatePerProcessNameMemoryDumpValues, aggregateProcessDumps,
      addProcessScalars, addProcessScalar, dictGet, dictSet, h1, h2, hu,
      MemUnit.unitName]
    decide
  · have hu : (MemUnit.unitlessNumber_smallerIsBetter =
        MemUnit.sizeInBytes_smallerIsBetter) = False := eq_false (by decide)
    norm_num [injectTotalsIntoPerProcessNameMemoryDumpValues, computeAllGroup,
      computeAllGroup.sumEachValueName, firstAppearanceKeys, sumScalars,
      sumScalarsLoop, dictGet, dictSet, MemUnit.unitName, List.filterMap,
      ALL_PROCESS_NAMES, hu]
    decide

/-- C6, witness: the two general mismatch properties applied at concrete
scalars of differing units. -/
theorem C6_witness :
    (∃ e, addProcessScalar "browser" [("x", ⟨.sizeInBytes_smallerIsBetter, 1⟩)] "x"
      (some ⟨.unitlessNumber_smallerIsBetter, 2⟩) = .error e) ∧
    (∃ e, sumScalars "x" [⟨.sizeInBytes_smallerIsBetter, 1⟩,
      ⟨.unitlessNumber_smallerIsBetter, 2⟩] = .error e) :=
  ⟨C6_unit_mismatch.1 "browser" "x" [("x", ⟨.sizeInBytes_smallerIsBetter, 1⟩)]
      ⟨.unitlessNumber_smallerIsBetter, 2⟩ ⟨.sizeInBytes_smallerIsBetter, 1⟩
      (by decide) (by decide),
    C6_unit_mismatch.2.1 "x" ⟨.sizeInBytes_smallerIsBetter, 1⟩
      [⟨.unitlessNumber_smallerIsBetter, 2⟩]
      ⟨⟨.unitlessNumber_smallerIsBetter, 2⟩, by decide, by decide⟩⟩

/-! ### Claim C10: detailed vmstats extraction -/

/-- C10: for every process dump the detailed extractor emits exactly the
five vmstats values, each as a present (never skipped) sizeInBytes scalar;
a missing classification node or a missing byte stat contributes the value
0; and the detailed pipeline processes exactly the DETAILED global dumps. -/
theorem C10_detailed_vmstats (pd : DetailedProcessData) :
    (detailedVmstatsExtractor pd).map Prod.fst =
      ["vmstats:overall:pss", "vmstats:overall:private_dirty",
       "vmstats:java_heap:private_dirty", "vmstats:ashmem:pss",
       "vmstats:native_heap:pss"] ∧
    (∀ p ∈ detailedVmstatsExtractor pd, ∃ v : ℚ,
      p.2 = some ⟨.sizeInBytes_smallerIsBetter, v⟩) ∧
    (∀ name spec, (name, spec) ∈ MMAPS_METRICS →
      (getDescendantVmRegionClassificationNode pd.vmRegions spec.path = none →
        ("vmstats:" ++ name, some (⟨.sizeInBytes_smallerIsBetter, 0⟩ : ScalarNumeric)) ∈
          detailedVmstatsExtractor pd) ∧
      (∀ n, getDescendantVmRegionClassificationNode pd.vmRegions spec.path = some n →
        n.byteStats.get spec.byteStat = none →
        ("vmstats:" ++ name, some (⟨.sizeInBytes_smallerIsBetter, 0⟩ : ScalarNumeric)) ∈
          detailedVmstatsExtractor pd)) ∧
    (∀ gdumps : List (GlobalMemoryDump DetailedProcessData),
      addDetailedMemoryDumpValues gdumps =
        match calculatePerProcessNameMemoryDumpValues detailedVmstatsExtractor
          (gdumps.filter (fun g => g.levelOfDetail == .DETAILED)) with
        | .error e => .error e
        | .ok t => injectTotalsIntoPerProcessNameMemoryDumpValues t) := by
  refine ⟨rfl, ?_, ?_, fun _ => rfl⟩
  · intro p hp
    rcases List.mem_map.mp hp with ⟨m, _, rfl⟩
    exact ⟨_, rfl⟩
  · intro name spec hmem
    constructor
    · intro hnode
      refine List.mem_map.mpr ⟨(name, spec), hmem, ?_⟩
      simp only [hnode]
    · intro n hnode hstat
      refine List.mem_map.mpr ⟨(name, spec), hmem, ?_⟩
      simp only [hnode, hstat, Option.getD_none]

/-- C10, witness: the extractor applied to a process dump without VM
regions emits the overall:pss value 0 (the classification node at the
empty path is absent). -/
theorem C10_witness :
    ("overall:pss", (⟨[], .proportionalResident⟩ : MmapMetricSpec)) ∈ MMAPS_METRICS ∧
    getDescendantVmRegionClassificationNode
      (DetailedProcessData.mk none).vmRegions [] = none ∧
    ("vmstats:" ++ "overall:pss",
        some (⟨.sizeInBytes_smallerIsBetter, 0⟩ : ScalarNumeric)) ∈
      detailedVmstatsExtractor ⟨none⟩ := by
  refine ⟨by decide, rfl, ?_⟩
  exact ((C10_detailed_vmstats ⟨none⟩).2.2.1 "overall:pss" ⟨[], .proportionalResident⟩
    (by decide)).1 rfl

end TraceViewer
